import Mathlib

/-
  Verification development for the atool-backend control plane.

  The Python sources are shallowly embedded: each supabase table becomes a
  list of rows inside a DB record, each handler becomes a pure function from
  the DB (plus its request inputs) to a new DB and an HTTP status, and every
  spot where the Python code catches a storage exception becomes an explicit
  Boolean failure-injection argument, so that both the success path and the
  caught-exception path of the source are part of the model.
-/

namespace ATool

/-- Row of the user_coins table (coins.py). -/
structure Wallet where
  balance : Int
  lifetime_earned : Int
  lifetime_spent : Int
  deriving Repr, DecidableEq

/-- Row of the append-only coin_transactions table (coins.py log_transaction). -/
structure CoinTxn where
  user_id : String
  transaction_type : String
  coins_delta : Int
  balance_after : Int
  reference_id : Option String
  deriving Repr, DecidableEq

/-- Row of the ad_sessions table (app.py start_ad_session inserts it). -/
structure AdSession where
  id : String
  user_id : String
  monetag_click_id : String
  zone_id : String
  ad_type : String
  status : String
  monetag_verified : Bool
  monetag_revenue : Option Rat
  postback_timestamp : Option Nat
  completed_at : Option Nat
  deriving Repr, DecidableEq

/-- Row of the ad_completions table.  coins.py record_ad_completion writes rows
carrying user_id, ad_network_id and the originating session id inside metadata;
the legacy insert in the monetag postback handler instead writes click_id and
received_at with no session reference.  Fields absent from one of the two
shapes are Options. -/
structure AdCompletion where
  id : String
  user_id : Option String
  ad_network_id : Option String
  click_id : Option String
  ad_type : Option String
  coins_awarded : Option Int
  session_id : Option String
  watched_at : Option Nat
  received_at : Option Nat
  deriving Repr, DecidableEq

/-- Free-form job metadata; the dispatcher reads input_image_url and duration
out of it (job_worker_realtime.py). -/
structure JobMeta where
  input_image_url : Option String
  duration : Option Nat
  deriving Repr, DecidableEq

/-- Row of the jobs table. -/
structure Job where
  job_id : String
  user_id : String
  job_type : String
  status : String
  prompt : String
  model : String
  aspect_ratio : String
  negative_prompt : String
  progress : Nat
  image_url : Option String
  thumbnail_url : Option String
  video_url : Option String
  metadata : JobMeta
  deriving Repr, DecidableEq

/-- The remote row store, one list per table, plus a counter used to mint
fresh primary keys for inserted ad_completions rows. -/
structure DB where
  wallets : List (String × Wallet)
  transactions : List CoinTxn
  sessions : List AdSession
  completions : List AdCompletion
  jobs : List Job
  fresh : Nat
  deriving Repr, DecidableEq

/-- Python truthiness for an optional string (None and the empty string are
falsy). -/
def truthy : Option String → Bool
  | none => false
  | some s => decide (s ≠ "")

/-- Select on user_coins by user_id: first row whose key matches. -/
def lookupWallet : List (String × Wallet) → String → Option Wallet
  | [], _ => none
  | (k, w) :: rest, u => if k = u then some w else lookupWallet rest u

/-- Update on user_coins keyed by user_id: every row whose key matches gets
the new wallet value (supabase update touches all matching rows). -/
def setWallet (ws : List (String × Wallet)) (u : String) (w2 : Wallet) :
    List (String × Wallet) :=
  ws.map (fun p => if p.1 = u then (p.1, w2) else p)

/-- Select on ad_sessions by primary key id: first row that matches. -/
def lookupSessionById : List AdSession → String → Option AdSession
  | [], _ => none
  | s :: rest, sid => if s.id = sid then some s else lookupSessionById rest sid

/-- Select on ad_sessions by monetag_click_id: first row that matches. -/
def findSessionByClick : List AdSession → String → Option AdSession
  | [], _ => none
  | s :: rest, c => if s.monetag_click_id = c then some s else findSessionByClick rest c

/-- Update on ad_sessions keyed by monetag_click_id: applies f to every
matching row (the postback handler updates by this non-primary column). -/
def updateSessionsByClick (ss : List AdSession) (c : String) (f : AdSession → AdSession) :
    List AdSession :=
  ss.map (fun s => if s.monetag_click_id = c then f s else s)

/-- Update on ad_sessions keyed by the primary key id.  The primary key is
unique, so the single matching row is the first one; updating the first match
embeds the one-row update the source performs. -/
def updateFirstSessionById : List AdSession → String → (AdSession → AdSession) → List AdSession
  | [], _, _ => []
  | s :: rest, sid, f =>
    if s.id = sid then f s :: rest else s :: updateFirstSessionById rest sid f

-- ============================================================================
-- coins.py
-- ============================================================================

def GENERATION_COST : Int := 5

def AD_REWARD : Int := 5

def MAX_ADS_PER_DAY : Nat := 50

/-- Embeds coins.py initialize_user_wallet: inserts a wallet row; lifetime
earned is the initial balance when positive, else zero; on a positive initial
balance an initial_bonus transaction is also logged. -/
def init_user_wallet (db : DB) (user : String) (initial : Int) : DB :=
  let db1 := { db with
    wallets := db.wallets ++ [(user, ⟨initial, if initial > 0 then initial else 0, 0⟩)] }
  if initial > 0 then
    { db1 with transactions :=
        db1.transactions ++ [⟨user, "initial_bonus", initial, initial, none⟩] }
  else db1

/-- coins.py get_coin_balance: returns the balance, lazily creating a zero
wallet on a miss; err injects the caught storage exception, which makes the
function return None without touching the store. -/
def get_coin_balance (db : DB) (user : String) (err : Bool) : DB × Option Int :=
  if err then (db, none)
  else match lookupWallet db.wallets user with
    | some w => (db, some w.balance)
    | none => (init_user_wallet db user 0, some 0)

/-- coins.py log_transaction: appends a row to coin_transactions; its own
exceptions are swallowed (err true appends nothing), and the caller ignores
the returned flag. -/
def log_transaction (db : DB) (t : CoinTxn) (err : Bool) : DB :=
  if err then db else { db with transactions := db.transactions ++ [t] }

/-- coins.py deduct_coins.  balErr injects a failing balance fetch, updErr an
exception inside the wallet update (both return false without mutating the
wallet), txnErr a failing transaction append, which the source ignores: the
wallet is then updated, no ledger row is written, and true is still returned.
The transaction type is always generation_used, as in the source. -/
def deduct_coins (db : DB) (user : String) (amount : Int) (ref : Option String)
    (balErr updErr txnErr : Bool) : DB × Bool :=
  match get_coin_balance db user balErr with
  | (db1, none) => (db1, false)
  | (db1, some bal) =>
    if bal < amount then (db1, false)
    else if updErr then (db1, false)
    else
      match lookupWallet db1.wallets user with
      | none => (db1, false)
      | some w =>
        let w2 : Wallet := ⟨bal - amount, w.lifetime_earned, w.lifetime_spent + amount⟩
        let db2 := { db1 with wallets := setWallet db1.wallets user w2 }
        let db3 := log_transaction db2 ⟨user, "generation_used", -amount, bal - amount, ref⟩ txnErr
        (db3, true)

/-- coins.py award_coins.  Reads the balance (lazily creating the wallet),
re-reads lifetime_earned (0 when the row is missing), updates the wallet and
appends a transaction of the given source type.  Failure injection mirrors
deduct_coins. -/
def award_coins (db : DB) (user : String) (amount : Int) (source : String)
    (ref : Option String) (balErr updErr txnErr : Bool) : DB × Bool :=
  match get_coin_balance db user balErr with
  | (db1, none) => (db1, false)
  | (db1, some bal) =>
    if updErr then (db1, false)
    else
      let earned := ((lookupWallet db1.wallets user).map Wallet.lifetime_earned).getD 0
      let spent := ((lookupWallet db1.wallets user).map Wallet.lifetime_spent).getD 0
      let db2 := { db1 with wallets := setWallet db1.wallets user ⟨bal + amount, earned + amount, spent⟩ }
      let db3 := log_transaction db2 ⟨user, source, amount, bal + amount, ref⟩ txnErr
      (db3, true)

/-- coins.py check_duplicate_ad: true when an ad_completions row for the same
user and ad network id has watched_at at or after the cutoff; any storage
error makes it return false (fail open). -/
def check_duplicate_ad (db : DB) (user ad : String) (cutoff : Nat) (err : Bool) : Bool :=
  if err then false
  else
    0 < (db.completions.filter (fun c =>
      c.user_id == some user && c.ad_network_id == some ad &&
        (match c.watched_at with
         | some t => decide (cutoff ≤ t)
         | none => false))).length

/-- coins.py check_daily_ad_limit: true when at least maxAds ad_completions
rows exist for the user since the UTC day start; any storage error makes it
return false (fail open). -/
def check_daily_ad_limit (db : DB) (user : String) (todayStart : Nat)
    (maxAds : Nat) (err : Bool) : Bool :=
  if err then false
  else
    maxAds ≤ (db.completions.filter (fun c =>
      c.user_id == some user &&
        (match c.watched_at with
         | some t => decide (todayStart ≤ t)
         | none => false))).length

/-- coins.py record_ad_completion: inserts an audit row (verified false in
the source) carrying the session id inside metadata, returning the new row id;
on a storage error it returns none and inserts nothing. -/
def record_ad_completion (db : DB) (user ad : String) (adType : String)
    (coinsAwarded : Int) (sessionRef : Option String) (now : Nat) (err : Bool) :
    DB × Option String :=
  if err then (db, none)
  else
    let cid := "comp_" ++ toString db.fresh
    ({ db with
        completions := db.completions ++
          [{ id := cid, user_id := some user, ad_network_id := some ad,
             click_id := none, ad_type := some adType,
             coins_awarded := some coinsAwarded,
             session_id := sessionRef, watched_at := some now, received_at := none }],
        fresh := db.fresh + 1 }, some cid)

/-- coins.py has_sufficient_coins: balance exists and is at least the
requirement. -/
def has_sufficient_coins (db : DB) (user : String) (required : Int) (err : Bool) : Bool :=
  match (get_coin_balance db user err).2 with
  | none => false
  | some b => decide (required ≤ b)

-- ============================================================================
-- app.py: ad session endpoints and the monetag postback receiver
-- ============================================================================

/-- Result of an ad handler: the new store, the HTTP status and, for the
reward endpoints, the coins_earned field of the 200 body. -/
structure ClaimResult where
  db : DB
  status : Nat
  coins_earned : Option Int
  deriving Repr, DecidableEq

/-- app.py start_ad_session: rejects with 402 when the daily limit check
fires, otherwise inserts a pending unverified session.  click and sid stand
for the generated click id and session uuid; qErr injects a storage error into
the limit check, insErr a failing insert (500). -/
def start_ad_session (db : DB) (user zone adType click sid : String)
    (todayStart : Nat) (qErr insErr : Bool) : DB × Nat :=
  if check_daily_ad_limit db user todayStart MAX_ADS_PER_DAY qErr then (db, 402)
  else if insErr then (db, 500)
  else
    ({ db with sessions := db.sessions ++
        [{ id := sid, user_id := user, monetag_click_id := click, zone_id := zone,
           ad_type := adType, status := "pending", monetag_verified := false,
           monetag_revenue := none, postback_timestamp := none, completed_at := none }] },
     200)

/-- app.py claim_ad_reward_internal, also the identical inline block inside
claim_ad_reward: marks the session completed, records the audit row and awards
AD_REWARD coins; a failing award yields 500 (the session stays completed). -/
def claim_ad_reward_internal (db : DB) (user sid : String) (s : AdSession) (now : Nat)
    (recErr balErr updErr txnErr : Bool) : ClaimResult :=
  let setDone := fun t : AdSession => { t with status := "completed", completed_at := some now }
  let db1 := { db with sessions := updateFirstSessionById db.sessions sid setDone }
  let audit := record_ad_completion db1 user s.monetag_click_id s.ad_type AD_REWARD
                (some sid) now recErr
  let aw := award_coins audit.1 user AD_REWARD "ad_watched" audit.2 balErr updErr txnErr
  if aw.2 then ⟨aw.1, 200, some AD_REWARD⟩ else ⟨aw.1, 500, none⟩

/-- app.py claim_ad_reward: guarded by session existence, caller ownership,
not-already-claimed and monetag verification, then the claim block. -/
def claim_ad_reward (db : DB) (user : String) (sessionId : Option String) (now : Nat)
    (recErr balErr updErr txnErr : Bool) : ClaimResult :=
  match sessionId with
  | none => ⟨db, 400, none⟩
  | some sid =>
    match lookupSessionById db.sessions sid with
    | none => ⟨db, 404, none⟩
    | some s =>
      if s.user_id ≠ user then ⟨db, 401, none⟩
      else if s.status = "completed" then ⟨db, 400, none⟩
      else if ¬ s.monetag_verified then ⟨db, 400, none⟩
      else claim_ad_reward_internal db user sid s now recErr balErr updErr txnErr

/-- app.py verify_and_reward: same guards, then claims when the session is
verified and answers 202 pending otherwise.  The source polls the unverified
session up to three times; in this sequential model the re-fetch returns the
unchanged row, so the polling collapses into the 202 branch. -/
def verify_and_reward (db : DB) (user : String) (sessionId : Option String) (now : Nat)
    (recErr balErr updErr txnErr : Bool) : ClaimResult :=
  match sessionId with
  | none => ⟨db, 400, none⟩
  | some sid =>
    match lookupSessionById db.sessions sid with
    | none => ⟨db, 404, none⟩
    | some s =>
      if s.user_id ≠ user then ⟨db, 401, none⟩
      else if s.status = "completed" then ⟨db, 400, none⟩
      else if s.monetag_verified then
        claim_ad_reward_internal db user sid s now recErr balErr updErr txnErr
      else ⟨db, 202, none⟩

/-- app.py reward_ad_completion (the legacy unverified /ads/reward): fraud
guards, then audit row and award. -/
def reward_ad_completion (db : DB) (user ad adType : String) (cutoff todayStart now : Nat)
    (qErr recErr balErr updErr txnErr : Bool) : ClaimResult :=
  if check_duplicate_ad db user ad cutoff qErr then ⟨db, 402, none⟩
  else if check_daily_ad_limit db user todayStart MAX_ADS_PER_DAY qErr then ⟨db, 402, none⟩
  else
    match record_ad_completion db user ad adType AD_REWARD none now recErr with
    | (db1, none) => ⟨db1, 500, none⟩
    | (db1, some cid) =>
      let aw := award_coins db1 user AD_REWARD "ad_watched" (some cid) balErr updErr txnErr
      if aw.2 then ⟨aw.1, 200, some AD_REWARD⟩ else ⟨aw.1, 500, none⟩

/-- Result of the postback handler: new store and HTTP status. -/
structure PostbackResult where
  db : DB
  status : Nat
  deriving Repr, DecidableEq

/-- app.py monetag_postback.  Rejects a missing click_id (400), an invalid
provided signature (403) and an invalid provided zone (400); sigValid and
zoneValid are the outcomes of the signature and zone validators that live in
the external monetag_api module.  On a matching session it sets
monetag_verified, stores the revenue and timestamp, and additionally forces
status to failed whenever the postback status field differs from completed.
With no matching session it inserts a legacy ad_completions row.  Storage
errors (lookupErr, insertErr) are swallowed and the postback is accepted. -/
def monetag_postback (db : DB) (clickId zoneId pUser : Option String) (revenue : Rat)
    (pbStatus : String) (sigProvided sigValid zoneValid : Bool) (now : Nat)
    (lookupErr insertErr : Bool) : PostbackResult :=
  match clickId with
  | none => ⟨db, 400⟩
  | some c =>
    if sigProvided && !sigValid then ⟨db, 403⟩
    else if zoneId.isSome && !zoneValid then ⟨db, 400⟩
    else if lookupErr then ⟨db, 200⟩
    else
      match findSessionByClick db.sessions c with
      | some _ =>
        let f := fun s : AdSession =>
          let s1 := { s with monetag_verified := true, monetag_revenue := some revenue,
                             postback_timestamp := some now }
          if pbStatus ≠ "completed" then { s1 with status := "failed" } else s1
        ⟨{ db with sessions := updateSessionsByClick db.sessions c f }, 200⟩
      | none =>
        if insertErr then ⟨db, 200⟩
        else
          ⟨{ db with
              completions := db.completions ++
                [{ id := "comp_" ++ toString db.fresh, user_id := pUser,
                   ad_network_id := none, click_id := some c, ad_type := none,
                   coins_awarded := none, session_id := none, watched_at := none,
                   received_at := some now }],
              fresh := db.fresh + 1 }, 200⟩

-- ============================================================================
-- app.py: job submission
-- ============================================================================

/-- Result of the jobs_create handler: new store and HTTP status. -/
structure JobsCreateResult where
  db : DB
  status : Nat
  deriving Repr, DecidableEq

/-- Modelled from the spec: create_job lives in the missing jobs.py module.
Per section 4.H the POST /jobs handler, after the ledger check, inserts the
job row; per section 3 a job is inserted with status pending by the HTTP
surface at submit.  jid stands for the generated job id; insErr injects a
failing insert, on which the handler answers 400. -/
def create_job (db : DB) (user p model ar np jt : String) (dur : Option Nat)
    (imageUrl : Option String) (jid : String) (insErr : Bool) : DB × Bool :=
  if insErr then (db, false)
  else
    ({ db with jobs := db.jobs ++
        [{ job_id := jid, user_id := user, job_type := jt, status := "pending",
           prompt := p, model := model, aspect_ratio := ar, negative_prompt := np,
           progress := 0, image_url := none, thumbnail_url := none, video_url := none,
           metadata := { input_image_url := imageUrl, duration := dur } }] },
     true)

/-- app.py jobs_create: 400 on a falsy prompt; 402 when the balance check
fails or the balance is under GENERATION_COST; 400 when the job insert fails;
otherwise the job is inserted and the coins are deducted afterwards.  A failed
deduction is only logged: the handler returns 201 regardless of the deduction
outcome, exactly as the source does. -/
def jobs_create (db : DB) (user : String) (prompt : Option String)
    (model ar np jt : String) (dur : Option Nat) (imageUrl : Option String)
    (jid : String) (insErr balErr updErr txnErr : Bool) : JobsCreateResult :=
  if ¬ truthy prompt then ⟨db, 400⟩
  else if ¬ has_sufficient_coins db user GENERATION_COST balErr then ⟨db, 402⟩
  else
    match create_job db user (prompt.getD "") model ar np jt dur imageUrl jid insErr with
    | (db1, false) => ⟨db1, 400⟩
    | (db1, true) =>
      let ded := deduct_coins db1 user GENERATION_COST (some jid) balErr updErr txnErr
      ⟨ded.1, 201⟩

-- ============================================================================
-- app.py: /get-url cache and the endpoint registry
-- ============================================================================

/-- Row of the modal_deployments table (the endpoint registry). -/
structure Deployment where
  deployment_id : String
  deployment_number : Nat
  image_url : Option String
  video_url : Option String
  is_active : Bool
  deriving Repr, DecidableEq

/-- Per-type URL column of a deployment row. -/
def deployment_url (jobType : String) (d : Deployment) : Option String :=
  if jobType = "video" then d.video_url else d.image_url

/-- Highest deployment_number wins among the candidate rows. -/
def pickBestDeployment : List Deployment → Option Deployment
  | [] => none
  | d :: rest =>
    match pickBestDeployment rest with
    | none => some d
    | some e => if e.deployment_number > d.deployment_number then some e else some d

/-- Modelled from the spec: get_endpoint_url of the missing
modal_url_manager.py module.  Per section 4.B get_active selects the single
row with is_active true whose per-type URL is non-empty, tie-breaking on the
highest deployment_number. -/
def get_endpoint_url (regs : List Deployment) (jobType : String) : Option String :=
  let cands := regs.filter (fun d => d.is_active && truthy (deployment_url jobType d))
  (pickBestDeployment cands).bind (deployment_url jobType)

/-- The module-global URL cache of app.py: cached_url plus the invalidation
flag (the timestamp only feeds log output and carries no age limit). -/
structure UrlCache where
  cached_url : Option String
  cache_invalidation_flag : Bool
  deriving Repr, DecidableEq

/-- Body of the /get-url response. -/
structure GetUrlResult where
  status : Nat
  url : Option String
  cached : Bool
  deriving Repr, DecidableEq

/-- app.py get_url: clears the cache when the invalidation flag is set, then
serves any cached URL with 200 regardless of the requested job_type; on a
miss it reads the registry, caching and returning the per-type URL, or 503
when no active deployment offers one. -/
def get_url (st : UrlCache) (regs : List Deployment) (jobType : String) :
    UrlCache × GetUrlResult :=
  let st1 := if st.cache_invalidation_flag then ⟨none, false⟩ else st
  match st1.cached_url with
  | some u => (st1, ⟨200, some u, true⟩)
  | none =>
    match get_endpoint_url regs jobType with
    | some u => ({ st1 with cached_url := some u }, ⟨200, some u, false⟩)
    | none => (st1, ⟨503, none, false⟩)

/-- app.py invalidate_cache: sets the invalidation flag. -/
def invalidate_cache (st : UrlCache) : UrlCache :=
  { st with cache_invalidation_flag := true }

/-- The fresh-fetch outcome of /get-url for a registry and job type: what a
request must answer when it does not hit the cache. -/
def registry_result (regs : List Deployment) (jobType : String) : GetUrlResult :=
  match get_endpoint_url regs jobType with
  | some u => ⟨200, some u, false⟩
  | none => ⟨503, none, false⟩

-- ============================================================================
-- job_worker_realtime.py: per-job dispatch
-- ============================================================================

/-- Video generation payload sent to the unified generate endpoint. -/
structure VideoPayload where
  type_ : String
  prompt : String
  model : String
  workflow_type : String
  width : Nat
  height : Nat
  duration : Nat
  fps : Nat
  input_image_url : Option String
  deriving Repr, DecidableEq

/-- The aspect_ratio_map of process_video_job: 16:9, 1:1 and 9:16 map to the
three supported resolutions and every other tag falls back to 16:9. -/
def video_dims (ar : String) : Nat × Nat :=
  if ar = "16:9" then (1024, 576)
  else if ar = "1:1" then (768, 768)
  else if ar = "9:16" then (576, 1024)
  else (1024, 576)

/-- Payload construction of process_video_job: model and workflow_type are
auto-detected from the presence of metadata.input_image_url, width and height
come from the aspect ratio map, duration from metadata (default 5), fps is
fixed at 25, and input_image_url is attached only in image-to-video mode. -/
def build_video_payload (j : Job) : VideoPayload :=
  let img := j.metadata.input_image_url
  let i2v := truthy img
  let actual_model :=
    if i2v then "wan2.2_i2v_high_noise_14B_fp16.safetensors"
    else "wan2.2_t2v_high_noise_14B_fp8_scaled.safetensors"
  let wf := if i2v then "image-to-video" else "text-to-video"
  let wh := video_dims ( Job.aspect_ratio j)
  { type_ := "video", prompt := j.prompt, model := actual_model, workflow_type := wf,
    width := wh.1, height := wh.2, duration := j.metadata.duration.getD 5, fps := 25,
    input_image_url := if i2v then img else none }

/-- Outcome of the upstream inference call, as seen by the worker. -/
inductive InferenceResult where
  | ok (body : String)
  | fail (msg : String)
  deriving Repr, DecidableEq

/-- Effect of one per-job worker pass: the resulting job row, whether the
endpoint registry was rotated, and the payload that was sent upstream. -/
structure WorkerOutcome where
  job : Job
  rotated : Bool
  sent : Option VideoPayload
  deriving Repr, DecidableEq

/-- process_video_job of job_worker_realtime.py, as its effect on the job row.
The worker first posts progress 10 (the backend marks the job running), builds
the payload and calls the endpoint; on success it posts progress 50, uploads,
and completes the job with the CDN URL in both image_url and video_url.  Both
except branches rotate the registry exactly when the error is classified as
terminal (isTerminal stands for is_limit_reached_error of the external
modal_url_manager module) and return without writing any job status. -/
def process_video_job (j : Job) (infer : InferenceResult) (uploadErr : Bool)
    (cdnUrl : String) (isTerminal : Bool) : WorkerOutcome :=
  let j1 := { j with status := "running", progress := 10 }
  let payload := build_video_payload j
  match infer with
  | .fail _ => ⟨j1, isTerminal, some payload⟩
  | .ok _ =>
    let j2 := { j1 with progress := 50 }
    if uploadErr then ⟨j2, isTerminal, some payload⟩
    else
      let j3 := { j2 with status := "completed", progress := 100,
                          image_url := some cdnUrl, video_url := some cdnUrl }
      ⟨j3, false, some payload⟩

/-- process_image_job of job_worker_realtime.py, as its effect on the job row.
Same shape as the video path: progress 10 marks the job running, a successful
generation and upload complete the job with the CDN URL, and every caught
error returns without writing any job status, rotating the registry exactly
when classified terminal. -/
def process_image_job (j : Job) (infer : InferenceResult) (uploadErr : Bool)
    (cdnUrl : String) (isTerminal : Bool) : WorkerOutcome :=
  let j1 := { j with status := "running", progress := 10 }
  match infer with
  | .fail _ => ⟨j1, isTerminal, none⟩
  | .ok _ =>
    if uploadErr then ⟨j1, isTerminal, none⟩
    else
      let j2 := { j1 with status := "completed", progress := 100,
                          image_url := some cdnUrl, thumbnail_url := some cdnUrl }
      ⟨j2, false, none⟩

-- ============================================================================
-- cloudinary_manager.py: usage thresholds and account rotation
-- ============================================================================

/-- Usage numbers returned by a successful probe of one media account. -/
structure Usage where
  bandwidth_used : Nat
  bandwidth_limit : Nat
  bandwidth_unlimited : Bool
  storage_used : Nat
  storage_limit : Nat
  storage_unlimited : Bool
  deriving Repr, DecidableEq

def BANDWIDTH_THRESHOLD : Nat := 20 * 1024 * 1024 * 1024

def STORAGE_THRESHOLD_PERCENT : Nat := 95

/-- storage_percent of check_account_usage: percentage of the storage limit in
use, 0 when the reported limit is not positive. -/
def storage_percent (u : Usage) : Rat :=
  if 0 < u.storage_limit then (u.storage_used : Rat) / (u.storage_limit : Rat) * 100 else 0

/-- over_bandwidth of check_account_usage: used bandwidth at or above 20 GiB
and the account is not flagged bandwidth-unlimited. -/
def over_bandwidth (u : Usage) : Bool :=
  decide (BANDWIDTH_THRESHOLD ≤ u.bandwidth_used) && !u.bandwidth_unlimited

/-- over_storage of check_account_usage: storage percentage at or above 95 and
the account is not flagged storage-unlimited. -/
def over_storage (u : Usage) : Bool :=
  decide ((STORAGE_THRESHOLD_PERCENT : Rat) ≤ storage_percent u) && !u.storage_unlimited

/-- over_threshold of check_account_usage. -/
def over_threshold (u : Usage) : Bool :=
  over_bandwidth u || over_storage u

/-- An account pool is embedded as the list of probe outcomes, one Option
Usage per account (none when check_account_usage failed for it).  An index is
usable when its probe succeeded and it is not over threshold, matching the
guard of rotate_to_next_account. -/
def account_ok (usages : List (Option Usage)) (idx : Nat) : Bool :=
  match usages[idx]? with
  | some (some u) => !over_threshold u
  | _ => false

/-- The search loop of rotate_to_next_account over the given attempt offsets:
for offset i the candidate index is (cur + i + 1) mod pool size, and the first
usable candidate wins. -/
def rotate_find (usages : List (Option Usage)) (cur : Nat) : List Nat → Option Nat
  | [] => none
  | i :: rest =>
    let idx := (cur + i + 1) % usages.length
    if account_ok usages idx then some idx else rotate_find usages cur rest

/-- rotate_to_next_account of cloudinary_manager.py: tries every account in
cyclic order after the current one and keeps the current account when all are
over threshold or unprobeable. -/
def rotate_to_next_account (usages : List (Option Usage)) (cur : Nat) : Nat :=
  match rotate_find usages cur (List.range usages.length) with
  | some idx => idx
  | none => cur

/-- select_best_account of cloudinary_manager.py: keeps the current account
when its probe fails or it is under threshold, and rotates otherwise.  The
returned value is the index of the account the next upload will use. -/
def select_best_account (usages : List (Option Usage)) (cur : Nat) : Nat :=
  match usages[cur]? with
  | some (some u) => if over_threshold u then rotate_to_next_account usages cur else cur
  | _ => cur

/-- The over-threshold classification in the words of claim C9: used bandwidth
at least 20 GiB with bandwidth not unlimited, or used storage at least 95
percent of the storage limit with storage not unlimited. -/
def over_threshold_claim (u : Usage) : Prop :=
  (BANDWIDTH_THRESHOLD ≤ u.bandwidth_used ∧ u.bandwidth_unlimited = false) ∨
  ((u.storage_limit : Rat) * 95 / 100 ≤ (u.storage_used : Rat) ∧ u.storage_unlimited = false)

instance (u : Usage) : Decidable (over_threshold_claim u) := by
  unfold over_threshold_claim; infer_instance

-- ============================================================================
-- Sequential operation traces for the invariant claims
-- ============================================================================

/-- One sequential ledger call: award_coins or deduct_coins with arbitrary
arguments and arbitrary injected storage failures. -/
inductive CoinOp where
  | award (user : String) (amount : Int) (source : String) (ref : Option String)
      (balErr updErr txnErr : Bool)
  | deduct (user : String) (amount : Int) (ref : Option String)
      (balErr updErr txnErr : Bool)
  deriving Repr, DecidableEq

/-- Effect of one ledger call on the store. -/
def run_coin_op (db : DB) : CoinOp → DB
  | .award u n src ref be ue te => (award_coins db u n src ref be ue te).1
  | .deduct u n ref be ue te => (deduct_coins db u n ref be ue te).1

/-- Effect of a sequential trace of ledger calls. -/
def run_coin_ops (db : DB) : List CoinOp → DB
  | [] => db
  | op :: rest => run_coin_ops (run_coin_op db op) rest

/-- The wallet equation of claim C5 for a single row. -/
def wallet_consistent (w : Wallet) : Prop :=
  w.balance = w.lifetime_earned - w.lifetime_spent

/-- The wallet equation holds on every row of the store. -/
def wallets_consistent (db : DB) : Prop :=
  ∀ p ∈ db.wallets, wallet_consistent p.2

/-- One operation touching the ad session state machine, with arbitrary
arguments and injected failures. -/
inductive AdOp where
  | start (user zone adType click sid : String) (todayStart : Nat) (qErr insErr : Bool)
  | postback (clickId zoneId pUser : Option String) (revenue : Rat) (pbStatus : String)
      (sigProvided sigValid zoneValid : Bool) (now : Nat) (lookupErr insertErr : Bool)
  | claim (user : String) (sessionId : Option String) (now : Nat)
      (recErr balErr updErr txnErr : Bool)
  | verify (user : String) (sessionId : Option String) (now : Nat)
      (recErr balErr updErr txnErr : Bool)
  | reward (user ad adType : String) (cutoff todayStart now : Nat)
      (qErr recErr balErr updErr txnErr : Bool)
  deriving Repr, DecidableEq

/-- Effect of one ad operation on the store. -/
def run_ad_op (db : DB) : AdOp → DB
  | .start u z t c sid ts q i => (start_ad_session db u z t c sid ts q i).1
  | .postback c z pu r st sp sv zv now le ie =>
      (monetag_postback db c z pu r st sp sv zv now le ie).db
  | .claim u sid now re be ue te => (claim_ad_reward db u sid now re be ue te).db
  | .verify u sid now re be ue te => (verify_and_reward db u sid now re be ue te).db
  | .reward u ad t cu ts now q re be ue te =>
      (reward_ad_completion db u ad t cu ts now q re be ue te).db

/-- Effect of a sequential trace of ad operations. -/
def run_ad_ops (db : DB) : List AdOp → DB
  | [] => db
  | op :: rest => run_ad_ops (run_ad_op db op) rest

/-- Sessions part of the claim C2 invariant: a completed session is always
monetag-verified. -/
def sessions_inv (db : DB) : Prop :=
  ∀ s ∈ db.sessions, s.status = "completed" → s.monetag_verified = true

-- ============================================================================
-- Concrete fixtures used by the counterexamples and witnesses
-- ============================================================================

/-- Store with one funded wallet, for the claim C1 counterexample. -/
def dbC1 : DB := ⟨[("u", ⟨10, 10, 0⟩)], [], [], [], [], 0⟩

/-- Pending unverified session, for the claim C2 counterexample trace. -/
def sessC2 : AdSession :=
  ⟨"s1", "u", "c1", "z9", "onclick", "pending", false, none, none, none⟩

/-- Store holding that session and a zero wallet. -/
def dbC2 : DB := ⟨[("u", ⟨0, 0, 0⟩)], [], [sessC2], [], [], 0⟩

/-- First postback of the claim C2 trace: click c1 reported completed. -/
def dbC2a : DB :=
  (monetag_postback dbC2 (some "c1") none none 0 "completed" false false true 10
    false false).db

/-- Claim call of the claim C2 trace: the owner claims session s1. -/
def dbC2b : DB := (claim_ad_reward dbC2a "u" (some "s1") 20 false false false false).db

/-- Second postback of the claim C2 trace: same click, now reported failed. -/
def dbC2c : DB :=
  (monetag_postback dbC2b (some "c1") none none 0 "failed" false false true 30
    false false).db

/-- Pending unverified session for the claim C3 witness. -/
def sessC3 : AdSession :=
  ⟨"s3", "u3", "c3", "z9", "onclick", "pending", false, none, none, none⟩

/-- Store for the claim C3 witness: that session and a wallet holding 3. -/
def dbC3 : DB := ⟨[("u3", ⟨3, 8, 5⟩)], [], [sessC3], [], [], 0⟩

/-- Registry with one active deployment carrying distinct per-type URLs, for
the claim C4 counterexample. -/
def regsC4 : List Deployment :=
  [⟨"d1", 1, some "https://img.example", some "https://vid.example", true⟩]

/-- Cache state after a /get-url request for job_type image on a cold cache
against that registry. -/
def cacheC4 : UrlCache := (get_url ⟨none, false⟩ regsC4 "image").1

/-- Usage probe sitting exactly at the 20 GiB bandwidth threshold, for claim
C9. -/
def usageAtLimit : Usage :=
  ⟨20 * 1024 * 1024 * 1024, 25 * 1024 * 1024 * 1024, false, 0, 1000, false⟩

/-- Healthy usage probe, for the claim C9 witness pool. -/
def usageHealthy : Usage := ⟨0, 25 * 1024 * 1024 * 1024, false, 0, 1000, false⟩

/-- Portrait image-to-video job, for the claim C8 witness. -/
def jobC8 : Job :=
  ⟨"j1", "u", "video", "pending", "p", "wan2.2", "9:16", "", 0, none, none, none,
    ⟨some "https://u/i.jpg", some 5⟩⟩

/-- Trace for the claim C5 witness: an over-balance deduction attempt, an ad
award, a claim and a failed transaction log. -/
def opsC5 : List CoinOp :=
  [CoinOp.deduct "w" 7 none false false false,
   CoinOp.award "w" 5 "ad_watched" (some "comp_0") false false false,
   CoinOp.deduct "w" 5 (some "job9") false false true,
   CoinOp.award "v" 3 "admin_bonus" none false false false]

-- ============================================================================
-- Helper lemmas about the table encodings
-- ============================================================================

theorem lookupWallet_mem {ws : List (String × Wallet)} {u : String} {w : Wallet}
    (h : lookupWallet ws u = some w) : (u, w) ∈ ws := by
  induction ws with
  | nil => simp [lookupWallet] at h
  | cons p rest ih =>
    obtain ⟨k, w0⟩ := p
    by_cases hk : k = u
    · subst hk
      simp [lookupWallet] at h
      subst h
      exact List.mem_cons_self _ _
    · simp [lookupWallet, hk] at h
      exact List.mem_cons_of_mem _ (ih h)

theorem lookupWallet_append_of_none {ws : List (String × Wallet)} {u : String}
    (h : lookupWallet ws u = none) (l2 : List (String × Wallet)) :
    lookupWallet (ws ++ l2) u = lookupWallet l2 u := by
  induction ws with
  | nil => simp
  | cons p rest ih =>
    obtain ⟨k, w0⟩ := p
    by_cases hk : k = u
    · simp [lookupWallet, hk] at h
    · simp [lookupWallet, hk] at h ⊢
      exact ih h

theorem lookupWallet_setWallet_some {ws : List (String × Wallet)} {u : String} {w : Wallet}
    (h : lookupWallet ws u = some w) (w2 : Wallet) :
    lookupWallet (setWallet ws u w2) u = some w2 := by
  induction ws with
  | nil => simp [lookupWallet] at h
  | cons p rest ih =>
    obtain ⟨k, w0⟩ := p
    simp only [setWallet, List.map_cons]
    by_cases hk : k = u
    · subst hk
      have he : (if ((k, w0) : String × Wallet).1 = k then (((k, w0) : String × Wallet).1, w2)
          else ((k, w0) : String × Wallet)) = (k, w2) := if_pos rfl
      rw [he]
      simp [lookupWallet]
    · simp only [lookupWallet, hk] at h
      have he : (if ((k, w0) : String × Wallet).1 = u then (((k, w0) : String × Wallet).1, w2)
          else ((k, w0) : String × Wallet)) = (k, w0) := if_neg hk
      rw [he]
      simp only [lookupWallet, hk, if_false]
      simpa [setWallet] using ih (by simpa [lookupWallet, hk] using h)

theorem mem_setWallet {ws : List (String × Wallet)} {u : String} {w2 : Wallet} {p : String × Wallet}
    (h : p ∈ setWallet ws u w2) : p ∈ ws ∨ p.2 = w2 := by
  unfold setWallet at h
  obtain ⟨q, hq, hpq⟩ := List.mem_map.mp h
  by_cases hk : q.1 = u
  · right
    simp [hk] at hpq
    subst hpq
    rfl
  · left
    simp [hk] at hpq
    subst hpq
    exact hq

theorem lookupSessionById_map {g : AdSession → AdSession} (hg : ∀ s, (g s).id = s.id)
    (l : List AdSession) (sid : String) :
    lookupSessionById (l.map g) sid = Option.map g (lookupSessionById l sid) := by
  induction l with
  | nil => simp [lookupSessionById]
  | cons s rest ih =>
    by_cases hid : s.id = sid
    · simp [lookupSessionById, hg, hid]
    · simp [lookupSessionById, hg, hid, ih]

theorem lookupSessionById_updateFirst {l : List AdSession} {sid : String} {s : AdSession}
    {f : AdSession → AdSession} (hf : ∀ t, (f t).id = t.id)
    (h : lookupSessionById l sid = some s) :
    lookupSessionById (updateFirstSessionById l sid f) sid = some (f s) := by
  induction l with
  | nil => simp [lookupSessionById] at h
  | cons t rest ih =>
    by_cases hid : t.id = sid
    · simp [lookupSessionById, hid] at h
      subst h
      simp [updateFirstSessionById, lookupSessionById, hid, hf]
    · simp [lookupSessionById, hid] at h
      simp [updateFirstSessionById, lookupSessionById, hid, ih h]

theorem mem_updateFirst {l : List AdSession} {sid : String} {f : AdSession → AdSession}
    {x : AdSession} (h : x ∈ updateFirstSessionById l sid f) :
    x ∈ l ∨ ∃ s, lookupSessionById l sid = some s ∧ x = f s := by
  induction l with
  | nil => simp [updateFirstSessionById] at h
  | cons t rest ih =>
    by_cases hid : t.id = sid
    · simp [updateFirstSessionById, hid] at h
      rcases h with h | h
      · exact Or.inr ⟨t, by simp [lookupSessionById, hid], h⟩
      · exact Or.inl (List.mem_cons_of_mem _ h)
    · simp [updateFirstSessionById, hid] at h
      rcases h with h | h
      · exact Or.inl (by simp [h])
      · rcases ih h with h2 | ⟨s, hs, hx⟩
        · exact Or.inl (List.mem_cons_of_mem _ h2)
        · exact Or.inr ⟨s, by simp [lookupSessionById, hid, hs], hx⟩

theorem findSessionByClick_isSome {l : List AdSession} {sid : String} {s : AdSession}
    {c : String} (h : lookupSessionById l sid = some s) (hc : s.monetag_click_id = c) :
    (findSessionByClick l c).isSome := by
  induction l with
  | nil => simp [lookupSessionById] at h
  | cons t rest ih =>
    by_cases hcl : t.monetag_click_id = c
    · simp [findSessionByClick, hcl]
    · by_cases hid : t.id = sid
      · simp [lookupSessionById, hid] at h
        subst h
        exact absurd hc hcl
      · simp [lookupSessionById, hid] at h
        simp [findSessionByClick, hcl]
        exact ih h

-- ============================================================================
-- Claim theorems
-- ============================================================================

/-- Claim C6: for every inbound postback request, regardless of click id,
status, signature or storage failures, processing the postback never changes
any wallet row and never appends a coin transaction; only ad-session and
ad-completion state is touched. -/
theorem claim_C6 (db : DB) (clickId zoneId pUser : Option String) (revenue : Rat)
    (pbStatus : String) (sigProvided sigValid zoneValid : Bool) (now : Nat)
    (lookupErr insertErr : Bool) :
    (monetag_postback db clickId zoneId pUser revenue pbStatus sigProvided sigValid
        zoneValid now lookupErr insertErr).db.wallets = db.wallets ∧
    (monetag_postback db clickId zoneId pUser revenue pbStatus sigProvided sigValid
        zoneValid now lookupErr insertErr).db.transactions = db.transactions := by
  cases clickId with
  | none => exact ⟨rfl, rfl⟩
  | some c =>
    by_cases h1 : (sigProvided && !sigValid) = true
    · simp [monetag_postback, h1]
    · by_cases h2 : (zoneId.isSome && !zoneValid) = true
      · simp [monetag_postback, h1, h2]
      · by_cases h3 : lookupErr = true
        · simp [monetag_postback, h1, h2, h3]
        · cases hf : findSessionByClick db.sessions c with
          | some s => simp [monetag_postback, h1, h2, h3, hf]
          | none =>
            by_cases h4 : insertErr = true
            · simp [monetag_postback, h1, h2, h3, h4, hf]
            · simp [monetag_postback, h1, h2, h3, h4, hf]

/-- Claim C7: on every error in a per-job dispatch, endpoint-terminal or not,
the worker leaves the job row exactly as it stood when the error struck and
never writes status failed; only a fully successful pass changes the status,
to completed. -/
theorem claim_C7 :
    (∀ (j : Job) (msg cdnUrl : String) (uploadErr isTerminal : Bool),
      (process_video_job j (InferenceResult.fail msg) uploadErr cdnUrl isTerminal).job
          = { j with status := "running", progress := 10 } ∧
      (process_image_job j (InferenceResult.fail msg) uploadErr cdnUrl isTerminal).job
          = { j with status := "running", progress := 10 }) ∧
    (∀ (j : Job) (body cdnUrl : String) (isTerminal : Bool),
      (process_video_job j (InferenceResult.ok body) true cdnUrl isTerminal).job
          = { j with status := "running", progress := 50 } ∧
      (process_image_job j (InferenceResult.ok body) true cdnUrl isTerminal).job
          = { j with status := "running", progress := 10 }) ∧
    (∀ (j : Job) (infer : InferenceResult) (uploadErr : Bool) (cdnUrl : String)
        (isTerminal : Bool),
      (process_video_job j infer uploadErr cdnUrl isTerminal).job.status ≠ "failed" ∧
      (process_image_job j infer uploadErr cdnUrl isTerminal).job.status ≠ "failed") := by
  refine ⟨?_, ?_, ?_⟩
  · intro j msg cdnUrl uploadErr isTerminal
    exact ⟨rfl, rfl⟩
  · intro j body cdnUrl isTerminal
    exact ⟨rfl, rfl⟩
  · intro j infer uploadErr cdnUrl isTerminal
    cases infer with
    | fail msg => exact ⟨by simp [process_video_job], by simp [process_image_job]⟩
    | ok body =>
      cases uploadErr with
      | false => exact ⟨by simp [process_video_job], by simp [process_image_job]⟩
      | true => exact ⟨by simp [process_video_job], by simp [process_image_job]⟩

/-- Claim C7 witness: a terminal-classified transport error on a concrete
pending video job leaves it running, not failed. -/
theorem claim_C7_witness :
    (process_video_job jobC8 (InferenceResult.fail "connection error") false "x" true).job.status
      ≠ "failed" :=
  (claim_C7.2.2 jobC8 (InferenceResult.fail "connection error") false "x" true).1

/-- Claim C8: the video payload carries fps 25, width and height mapped from
the aspect ratio tag (16:9 to 1024x576, 1:1 to 768x768, 9:16 to 576x1024,
anything else to 1024x576), and is image-to-video with the image-to-video
weights file exactly when metadata.input_image_url is present (truthy),
text-to-video with the text-to-video weights file otherwise. -/
theorem claim_C8 (j : Job) :
    (build_video_payload j).fps = 25 ∧
    (build_video_payload j).type_ = "video" ∧
    ( Job.aspect_ratio j = "16:9" →
      ((build_video_payload j).width, (build_video_payload j).height) = (1024, 576)) ∧
    ( Job.aspect_ratio j = "1:1" →
      ((build_video_payload j).width, (build_video_payload j).height) = (768, 768)) ∧
    ( Job.aspect_ratio j = "9:16" →
      ((build_video_payload j).width, (build_video_payload j).height) = (576, 1024)) ∧
    ( Job.aspect_ratio j ≠ "16:9" → Job.aspect_ratio j ≠ "1:1" →
      Job.aspect_ratio j ≠ "9:16" →
      ((build_video_payload j).width, (build_video_payload j).height) = (1024, 576)) ∧
    (truthy j.metadata.input_image_url = true →
      (build_video_payload j).workflow_type = "image-to-video" ∧
      (build_video_payload j).model = "wan2.2_i2v_high_noise_14B_fp16.safetensors" ∧
      (build_video_payload j).input_image_url = j.metadata.input_image_url) ∧
    (truthy j.metadata.input_image_url = false →
      (build_video_payload j).workflow_type = "text-to-video" ∧
      (build_video_payload j).model = "wan2.2_t2v_high_noise_14B_fp8_scaled.safetensors" ∧
      (build_video_payload j).input_image_url = none) := by
  refine ⟨rfl, rfl, ?_, ?_, ?_, ?_, ?_, ?_⟩
  · intro h
    simp [build_video_payload, video_dims, h]
  · intro h
    simp [build_video_payload, video_dims, h]
  · intro h
    simp [build_video_payload, video_dims, h]
  · intro h1 h2 h3
    simp [build_video_payload, video_dims, h1, h2, h3]
  · intro h
    exact ⟨by simp [build_video_payload, h], by simp [build_video_payload, h],
      by simp [build_video_payload, h]⟩
  · intro h
    exact ⟨by simp [build_video_payload, h], by simp [build_video_payload, h],
      by simp [build_video_payload, h]⟩

/-- Claim C8 witness: the concrete portrait image-to-video job is mapped to
576x1024 with the image-to-video weights. -/
theorem claim_C8_witness :
    ((build_video_payload jobC8).width, (build_video_payload jobC8).height) = (576, 1024) ∧
    (build_video_payload jobC8).workflow_type = "image-to-video" := by
  have h := claim_C8 jobC8
  exact ⟨h.2.2.2.2.1 rfl, (h.2.2.2.2.2.2.1 (by decide)).1⟩

/-- Claim C10: the ad fraud guards fail open.  When the row-store query
errors, check_duplicate_ad answers false (no duplicate) and
check_daily_ad_limit answers false (under the limit), so a storage failure
never makes start_ad_session or the legacy reward endpoint answer the 402
policy rejection. -/
theorem claim_C10 (db : DB) (user ad zone adType click sid : String)
    (cutoff todayStart now : Nat) (insErr recErr balErr updErr txnErr : Bool) :
    check_duplicate_ad db user ad cutoff true = false ∧
    check_daily_ad_limit db user todayStart MAX_ADS_PER_DAY true = false ∧
    (start_ad_session db user zone adType click sid todayStart true insErr).2 ≠ 402 ∧
    (reward_ad_completion db user ad adType cutoff todayStart now true recErr balErr
        updErr txnErr).status ≠ 402 := by
  refine ⟨rfl, rfl, ?_, ?_⟩
  · cases insErr <;> simp [start_ad_session, check_daily_ad_limit]
  · cases hr : record_ad_completion db user ad adType AD_REWARD none now recErr with
    | mk db1 ocid =>
      cases ocid with
      | none => simp [reward_ad_completion, check_duplicate_ad, check_daily_ad_limit, hr]
      | some cid =>
        by_cases haw :
            (award_coins db1 user AD_REWARD "ad_watched" (some cid) balErr updErr txnErr).2
              = true <;>
          simp [reward_ad_completion, check_duplicate_ad, check_daily_ad_limit, hr, haw]

/-- Claim C10 witness: a failing store on the concrete funded store does not
block session start. -/
theorem claim_C10_witness :
    check_duplicate_ad dbC1 "u" "ad" 0 true = false ∧
    (start_ad_session dbC1 "u" "z9" "onclick" "c" "s" 0 true false).2 ≠ 402 := by
  have h := claim_C10 dbC1 "u" "ad" "z9" "onclick" "c" "s" 0 0 0 false false false false false
  exact ⟨h.1, h.2.2.1⟩

/-- Claim C1 counterexample: on the concrete funded store, a storage failure
inside the coin deduction still yields HTTP 201 while no coin transaction is
appended, refuting the claim that whenever no generation_used transaction is
appended the call returns a non-201 status. -/
theorem claim_C1_counterexample :
    (jobs_create dbC1 "u" (some "a cat") "m" "1:1" "" "image" none none "job1"
        false false true false).status = 201 ∧
    (jobs_create dbC1 "u" (some "a cat") "m" "1:1" "" "image" none none "job1"
        false false true false).db.transactions = dbC1.transactions :=
  ⟨rfl, rfl⟩

/-- Claim C1 amended: a POST /jobs that returns 201 has inserted the job row;
when the deduction's wallet update and transaction append both succeed,
exactly one generation_used transaction with coins_delta minus 5 referencing
the job id is appended; but when either of them fails, the call still returns
201 with the transaction log unchanged, the source only logging a warning. -/
theorem claim_C1_amended (db : DB) (user p model ar np jt : String) (dur : Option Nat)
    (img : Option String) (jid : String) (updErr txnErr : Bool) (w : Wallet)
    (hw : lookupWallet db.wallets user = some w) (hp : p ≠ "")
    (hbal : GENERATION_COST ≤ w.balance) :
    (jobs_create db user (some p) model ar np jt dur img jid false false updErr
        txnErr).status = 201 ∧
    (jobs_create db user (some p) model ar np jt dur img jid false false updErr
        txnErr).db.jobs
      = db.jobs ++ [⟨jid, user, jt, "pending", p, model, ar, np, 0, none, none, none,
          ⟨img, dur⟩⟩] ∧
    (updErr = false → txnErr = false →
      (jobs_create db user (some p) model ar np jt dur img jid false false updErr
          txnErr).db.transactions
        = db.transactions ++ [⟨user, "generation_used", -GENERATION_COST,
            w.balance - GENERATION_COST, some jid⟩]) ∧
    ((updErr = true ∨ txnErr = true) →
      (jobs_create db user (some p) model ar np jt dur img jid false false updErr
          txnErr).db.transactions = db.transactions) := by
  have hnl : ¬ (w.balance < GENERATION_COST) := not_lt.mpr hbal
  have htr : truthy (some p) = true := by simp [truthy, hp]
  have hsuff : has_sufficient_coins db user GENERATION_COST false = true := by
    simp [has_sufficient_coins, get_coin_balance, hw, hbal]
  cases updErr with
  | true =>
    refine ⟨?_, ?_, ?_, ?_⟩ <;>
      simp [jobs_create, htr, hsuff, create_job, deduct_coins, get_coin_balance, hw, hnl]
  | false =>
    cases txnErr with
    | true =>
      refine ⟨?_, ?_, ?_, ?_⟩ <;>
        simp [jobs_create, htr, hsuff, create_job, deduct_coins, get_coin_balance, hw,
          hnl, log_transaction]
    | false =>
      refine ⟨?_, ?_, ?_, ?_⟩ <;>
        simp [jobs_create, htr, hsuff, create_job, deduct_coins, get_coin_balance, hw,
          hnl, log_transaction]

/-- Claim C1 witness: the error-free concrete request yields 201 and appends
exactly the expected ledger row. -/
theorem claim_C1_witness :
    (jobs_create dbC1 "u" (some "a cat") "m" "1:1" "" "image" none none "job1"
        false false false false).status = 201 ∧
    (jobs_create dbC1 "u" (some "a cat") "m" "1:1" "" "image" none none "job1"
        false false false false).db.transactions
      = dbC1.transactions ++ [⟨"u", "generation_used", -GENERATION_COST,
          10 - GENERATION_COST, some "job1"⟩] := by
  have h := claim_C1_amended dbC1 "u" "a cat" "m" "1:1" "" "image" none none "job1"
    false false ⟨10, 10, 0⟩ (by decide) (by decide) (by decide)
  exact ⟨h.1, h.2.2.1 rfl rfl⟩

/-- Claim C4 counterexample: after a /get-url for job_type image fills the
cache, a /get-url for job_type video serves the cached image URL with 200 even
though the active deployment's video URL differs, refuting the claim that the
returned URL is the per-type URL for the requested job_type. -/
theorem claim_C4_counterexample :
    (get_url cacheC4 regsC4 "video").2 = ⟨200, some "https://img.example", true⟩ ∧
    get_endpoint_url regsC4 "video" = some "https://vid.example" ∧
    ("https://img.example" : String) ≠ "https://vid.example" := by
  refine ⟨rfl, rfl, by decide⟩

/-- Claim C4 amended: on a cache miss with the invalidation flag clear,
/get-url answers from the registry with the per-type URL of the active
deployment, or 503 when none exists; on a cache hit it serves the cached URL
regardless of the requested job_type; and after /invalidate-cache the next
/get-url re-reads the registry. -/
theorem claim_C4_amended :
    (∀ (st : UrlCache) (regs : List Deployment) (jt : String),
      st.cached_url = none → st.cache_invalidation_flag = false →
      (get_url st regs jt).2 = registry_result regs jt) ∧
    (∀ (st : UrlCache) (regs : List Deployment) (jt u : String),
      st.cache_invalidation_flag = false → st.cached_url = some u →
      (get_url st regs jt).2 = ⟨200, some u, true⟩) ∧
    (∀ (st : UrlCache) (regs : List Deployment) (jt : String),
      (get_url (invalidate_cache st) regs jt).2 = registry_result regs jt) := by
  refine ⟨?_, ?_, ?_⟩
  · intro st regs jt h1 h2
    cases hr : get_endpoint_url regs jt <;>
      simp [get_url, registry_result, h1, h2, hr]
  · intro st regs jt u h1 h2
    simp [get_url, h1, h2]
  · intro st regs jt
    cases hr : get_endpoint_url regs jt <;>
      simp [get_url, invalidate_cache, registry_result, hr]

/-- Claim C4 witness: on the concrete registry, the poisoned cache serves the
image URL for a video request, and after invalidation the registry is
re-read. -/
theorem claim_C4_witness :
    (get_url cacheC4 regsC4 "video").2 = ⟨200, some "https://img.example", true⟩ ∧
    (get_url (invalidate_cache cacheC4) regsC4 "video").2
      = registry_result regsC4 "video" := by
  exact ⟨claim_C4_amended.2.1 cacheC4 regsC4 "video" "https://img.example" (by decide)
      (by decide),
    claim_C4_amended.2.2 cacheC4 regsC4 "video"⟩

theorem rotate_find_ok {usages : List (Option Usage)} {cur idx : Nat} {l : List Nat}
    (h : rotate_find usages cur l = some idx) : account_ok usages idx = true := by
  induction l with
  | nil => simp [rotate_find] at h
  | cons i rest ih =>
    by_cases hok : account_ok usages ((cur + i + 1) % usages.length) = true
    · simp [rotate_find, hok] at h
      rw [← h]
      exact hok
    · simp [rotate_find, hok] at h
      exact ih h

theorem rotate_find_isSome {usages : List (Option Usage)} {cur : Nat} {l : List Nat}
    (h : ∃ i ∈ l, account_ok usages ((cur + i + 1) % usages.length) = true) :
    (rotate_find usages cur l).isSome := by
  induction l with
  | nil => simp at h
  | cons i rest ih =>
    by_cases hok : account_ok usages ((cur + i + 1) % usages.length) = true
    · simp [rotate_find, hok]
    · obtain ⟨i2, hi2, hok2⟩ := h
      rcases List.mem_cons.mp hi2 with rfl | hi2b
      · exact absurd hok2 hok
      · simp [rotate_find, hok]
        exact ih ⟨i2, hi2b, hok2⟩

theorem cycle_offset_hits {n cur j : Nat} (hn : cur < n) (hj : j < n) :
    (cur + (j + n - 1 - cur) % n + 1) % n = j := by
  have e1 : cur + (j + n - 1 - cur) + 1 = j + n := by omega
  have h2 : cur + (j + n - 1 - cur) % n + 1 ≡ cur + (j + n - 1 - cur) + 1 [MOD n] :=
    Nat.ModEq.add_right 1 (Nat.ModEq.add_left cur (Nat.mod_modEq _ n))
  have h3 : (cur + (j + n - 1 - cur) % n + 1) % n = (cur + (j + n - 1 - cur) + 1) % n := h2
  rw [h3, e1, Nat.add_mod_right, Nat.mod_eq_of_lt hj]

theorem storage_ineq_iff {used limit : Rat} (hl : 0 < limit) :
    ((95 : Rat) ≤ used / limit * 100) ↔ (limit * 95 / 100 ≤ used) := by
  rw [div_mul_eq_mul_div, le_div_iff₀ hl, div_le_iff₀ (by norm_num : (0:Rat) < 100)]
  constructor <;> intro h <;> linarith

theorem over_storage_iff (u : Usage) :
    over_storage u = true ↔
      (0 < u.storage_limit ∧
       (u.storage_limit : Rat) * 95 / 100 ≤ (u.storage_used : Rat) ∧
       u.storage_unlimited = false) := by
  unfold over_storage storage_percent STORAGE_THRESHOLD_PERCENT
  by_cases hl : 0 < u.storage_limit
  · have hlr : (0:Rat) < (u.storage_limit : Rat) := by exact_mod_cast hl
    simp only [hl, if_true, Bool.and_eq_true, decide_eq_true_eq, Bool.not_eq_true']
    rw [show (((95 : Nat) : Rat)) = (95 : Rat) by norm_num]
    rw [storage_ineq_iff hlr]
    tauto
  · simp only [hl, if_false, Bool.and_eq_true, decide_eq_true_eq, Bool.not_eq_true']
    constructor
    · rintro ⟨h95, _⟩
      exact absurd h95 (by norm_num)
    · rintro ⟨hpos, _⟩
      exact hpos.elim

theorem over_bandwidth_iff (u : Usage) :
    over_bandwidth u = true ↔
      (BANDWIDTH_THRESHOLD ≤ u.bandwidth_used ∧ u.bandwidth_unlimited = false) := by
  simp [over_bandwidth, Bool.and_eq_true, decide_eq_true_eq, Bool.not_eq_true']

/-- Claim C9 counterexample: a single-account pool probed at exactly 20 GiB of
bandwidth is classified over-threshold, yet the next upload selects the very
same account, because no different account exists to switch to. -/
theorem claim_C9_counterexample :
    over_threshold usageAtLimit = true ∧
    select_best_account [some usageAtLimit] 0 = 0 := by
  decide

/-- Claim C9 amended: the over-threshold classification holds exactly when
used bandwidth is at least 20 GiB with bandwidth not unlimited, or the storage
limit is positive and used storage is at least 95 percent of it with storage
not unlimited (a nonpositive reported storage limit counts as 0 percent used);
and a probe of exactly 20 GiB bandwidth makes the next upload select a
different, under-threshold account provided such an account exists in the
pool. -/
theorem claim_C9_amended :
    (∀ u : Usage, over_threshold u = true ↔
      ((BANDWIDTH_THRESHOLD ≤ u.bandwidth_used ∧ u.bandwidth_unlimited = false) ∨
       (0 < u.storage_limit ∧
        (u.storage_limit : Rat) * 95 / 100 ≤ (u.storage_used : Rat) ∧
        u.storage_unlimited = false))) ∧
    (∀ (usages : List (Option Usage)) (cur j : Nat) (u : Usage),
      usages[cur]? = some (some u) → u.bandwidth_used = BANDWIDTH_THRESHOLD →
      u.bandwidth_unlimited = false → j < usages.length → j ≠ cur →
      account_ok usages j = true →
      select_best_account usages cur ≠ cur ∧
      account_ok usages (select_best_account usages cur) = true) := by
  constructor
  · intro u
    rw [over_threshold, Bool.or_eq_true, over_bandwidth_iff, over_storage_iff]
  · intro usages cur j u hc hbw hbu hj hne hok
    obtain ⟨hcur, -⟩ := List.getElem?_eq_some.mp hc
    have hover : over_threshold u = true := by
      simp [over_threshold, over_bandwidth, hbw, hbu]
    have hokcur : account_ok usages cur = false := by
      simp [account_ok, hc, hover]
    have hpos : 0 < usages.length := Nat.lt_of_le_of_lt (Nat.zero_le _) hcur
    have hhit : (cur + (j + usages.length - 1 - cur) % usages.length + 1) % usages.length
        = j := cycle_offset_hits hcur hj
    have hex : ∃ i ∈ List.range usages.length,
        account_ok usages ((cur + i + 1) % usages.length) = true :=
      ⟨(j + usages.length - 1 - cur) % usages.length,
       List.mem_range.mpr (Nat.mod_lt _ hpos), by rw [hhit]; exact hok⟩
    obtain ⟨idx, hidx⟩ := Option.isSome_iff_exists.mp (rotate_find_isSome hex)
    have hokidx := rotate_find_ok hidx
    have hidxne : idx ≠ cur := by
      intro he
      rw [he, hokcur] at hokidx
      exact Bool.noConfusion hokidx
    have hsel : select_best_account usages cur = idx := by
      simp [select_best_account, hc, hover, rotate_to_next_account, hidx]
    rw [hsel]
    exact ⟨hidxne, hokidx⟩

/-- Claim C9 witness: with a second healthy account in the pool, the probe at
exactly 20 GiB makes the next upload switch to it. -/
theorem claim_C9_witness :
    select_best_account [some usageAtLimit, some usageHealthy] 0 ≠ 0 ∧
    account_ok [some usageAtLimit, some usageHealthy]
      (select_best_account [some usageAtLimit, some usageHealthy] 0) = true :=
  claim_C9_amended.2 [some usageAtLimit, some usageHealthy] 0 1 usageAtLimit
    (by decide) (by decide) (by decide) (by decide) (by decide)
    (by
      simp [account_ok, over_threshold, over_bandwidth, over_storage, storage_percent,
        usageHealthy, BANDWIDTH_THRESHOLD, STORAGE_THRESHOLD_PERCENT])

theorem log_transaction_wallets (db : DB) (t : CoinTxn) (e : Bool) :
    (log_transaction db t e).wallets = db.wallets := by
  unfold log_transaction
  split <;> rfl

theorem init_user_wallet_wallets (db : DB) (user : String) (initial : Int) :
    (init_user_wallet db user initial).wallets
      = db.wallets ++ [(user, ⟨initial, if initial > 0 then initial else 0, 0⟩)] := by
  unfold init_user_wallet
  split <;> rfl

theorem wallets_consistent_set {ws : List (String × Wallet)}
    (h : ∀ p ∈ ws, wallet_consistent p.2) {u : String} {w2 : Wallet}
    (h2 : wallet_consistent w2) : ∀ p ∈ setWallet ws u w2, wallet_consistent p.2 := by
  intro p hp
  rcases mem_setWallet hp with hin | heq
  · exact h p hin
  · rw [heq]
    exact h2

theorem wallets_consistent_init {db : DB} (hdb : wallets_consistent db) (user : String)
    {initial : Int} (h0 : 0 ≤ initial) :
    wallets_consistent (init_user_wallet db user initial) := by
  intro p hp
  rw [init_user_wallet_wallets] at hp
  rcases List.mem_append.mp hp with hin | hnew
  · exact hdb p hin
  · simp at hnew
    rw [hnew]
    by_cases hi : initial > 0
    · simp [wallet_consistent, hi]
    · simp [wallet_consistent, hi]
      omega

theorem award_coins_consistent (db : DB) (u : String) (n : Int) (src : String)
    (ref : Option String) (be ue te : Bool) (hdb : wallets_consistent db) :
    wallets_consistent (award_coins db u n src ref be ue te).1 := by
  unfold award_coins get_coin_balance
  cases be with
  | true => simpa using hdb
  | false =>
    cases hw : lookupWallet db.wallets u with
    | some w =>
      cases ue with
      | true => simpa using hdb
      | false =>
        have hcw : wallet_consistent w := hdb _ (lookupWallet_mem hw)
        simp only [Bool.false_eq_true, if_false, hw]
        intro p hp
        rw [log_transaction_wallets] at hp
        refine wallets_consistent_set hdb ?_ p hp
        simp [wallet_consistent] at hcw ⊢
        omega
    | none =>
      cases ue with
      | true =>
        simp only [Bool.false_eq_true, if_false, hw]
        simpa using wallets_consistent_init hdb u (le_refl 0)
      | false =>
        have hdb1 : wallets_consistent (init_user_wallet db u 0) :=
          wallets_consistent_init hdb u (le_refl 0)
        have hl1 : lookupWallet (init_user_wallet db u 0).wallets u = some ⟨0, 0, 0⟩ := by
          rw [init_user_wallet_wallets, lookupWallet_append_of_none hw]
          simp [lookupWallet]
        simp only [Bool.false_eq_true, if_false, hw, hl1]
        intro p hp
        rw [log_transaction_wallets] at hp
        refine wallets_consistent_set hdb1 ?_ p hp
        simp [wallet_consistent]

theorem deduct_coins_consistent (db : DB) (u : String) (n : Int) (ref : Option String)
    (be ue te : Bool) (hdb : wallets_consistent db) :
    wallets_consistent (deduct_coins db u n ref be ue te).1 := by
  unfold deduct_coins get_coin_balance
  cases be with
  | true => simpa using hdb
  | false =>
    cases hw : lookupWallet db.wallets u with
    | some w =>
      by_cases hlt : w.balance < n
      · simpa [hw, hlt] using hdb
      · cases ue with
        | true => simpa [hw, hlt] using hdb
        | false =>
          have hcw : wallet_consistent w := hdb _ (lookupWallet_mem hw)
          simp only [Bool.false_eq_true, if_false, hw, hlt]
          intro p hp
          rw [log_transaction_wallets] at hp
          refine wallets_consistent_set hdb ?_ p hp
          simp [wallet_consistent] at hcw ⊢
          omega
    | none =>
      have hdb1 : wallets_consistent (init_user_wallet db u 0) :=
        wallets_consistent_init hdb u (le_refl 0)
      have hl1 : lookupWallet (init_user_wallet db u 0).wallets u = some ⟨0, 0, 0⟩ := by
        rw [init_user_wallet_wallets, lookupWallet_append_of_none hw]
        simp [lookupWallet]
      by_cases hlt : (0 : Int) < n
      · simpa [hw, hlt] using hdb1
      · cases ue with
        | true => simpa [hw, hlt] using hdb1
        | false =>
          simp only [Bool.false_eq_true, if_false, hw, hlt, hl1]
          intro p hp
          rw [log_transaction_wallets] at hp
          refine wallets_consistent_set hdb1 ?_ p hp
          simp [wallet_consistent]

theorem run_coin_ops_consistent (db : DB) (ops : List CoinOp)
    (hdb : wallets_consistent db) : wallets_consistent (run_coin_ops db ops) := by
  induction ops generalizing db with
  | nil => exact hdb
  | cons op rest ih =>
    cases op with
    | award u n src ref be ue te =>
      exact ih _ (award_coins_consistent db u n src ref be ue te hdb)
    | deduct u n ref be ue te =>
      exact ih _ (deduct_coins_consistent db u n ref be ue te hdb)

/-- Claim C5: for every wallet, balance equals lifetime earned minus lifetime
spent; the equation holds after wallet initialization with a non-negative
starting balance and is preserved by every sequential execution of award_coins
and deduct_coins, with any arguments and any injected storage failures.
Administrative adjustments route through these two primitives, so no separate
admin term is needed. -/
theorem claim_C5 (db : DB) (hdb : wallets_consistent db) (user : String) (initial : Int)
    (h0 : 0 ≤ initial) (ops : List CoinOp) :
    wallets_consistent (run_coin_ops (init_user_wallet db user initial) ops) :=
  run_coin_ops_consistent _ ops (wallets_consistent_init hdb user h0)

/-- Claim C5 witness: a concrete trace of awards, deductions, an over-balance
attempt and a failed transaction log keeps every wallet on the equation. -/
theorem claim_C5_witness :
    wallets_consistent (run_coin_ops (init_user_wallet ⟨[], [], [], [], [], 0⟩ "w" 5) opsC5) :=
  claim_C5 ⟨[], [], [], [], [], 0⟩ (by simp [wallets_consistent]) "w" 5 (by decide) opsC5

theorem init_user_wallet_sessions (db : DB) (u : String) (i : Int) :
    (init_user_wallet db u i).sessions = db.sessions := by
  unfold init_user_wallet
  split <;> rfl

theorem log_transaction_sessions (db : DB) (t : CoinTxn) (e : Bool) :
    (log_transaction db t e).sessions = db.sessions := by
  unfold log_transaction
  split <;> rfl

theorem award_coins_sessions (db : DB) (u : String) (n : Int) (src : String)
    (ref : Option String) (be ue te : Bool) :
    (award_coins db u n src ref be ue te).1.sessions = db.sessions := by
  unfold award_coins get_coin_balance
  cases be with
  | true => rfl
  | false =>
    cases hw : lookupWallet db.wallets u with
    | some w =>
      cases ue with
      | true => rfl
      | false => simp [log_transaction_sessions]
    | none =>
      cases ue with
      | true => simp [init_user_wallet_sessions]
      | false => simp [log_transaction_sessions, init_user_wallet_sessions]

theorem record_ad_completion_sessions (db : DB) (u ad adType : String) (ca : Int)
    (sr : Option String) (now : Nat) (e : Bool) :
    (record_ad_completion db u ad adType ca sr now e).1.sessions = db.sessions := by
  unfold record_ad_completion
  split <;> rfl

theorem claim_internal_sessions (db : DB) (u sid : String) (s : AdSession) (now : Nat)
    (re be ue te : Bool) :
    (claim_ad_reward_internal db u sid s now re be ue te).db.sessions
      = updateFirstSessionById db.sessions sid
          (fun t => { t with status := "completed", completed_at := some now }) := by
  unfold claim_ad_reward_internal
  dsimp only
  split <;>
    simp [award_coins_sessions, record_ad_completion_sessions]

theorem sessions_inv_claim_internal {db : DB} (hdb : sessions_inv db) {sid : String}
    {s0 : AdSession} (hs0 : lookupSessionById db.sessions sid = some s0)
    (hver : s0.monetag_verified = true) (u : String) (s : AdSession) (now : Nat)
    (re be ue te : Bool) :
    sessions_inv (claim_ad_reward_internal db u sid s now re be ue te).db := by
  intro t ht
  rw [claim_internal_sessions] at ht
  rcases mem_updateFirst ht with hin | ⟨s1, hs1, hts⟩
  · exact hdb t hin
  · rw [hs1] at hs0
    injection hs0 with he
    subst he
    rw [hts]
    intro _
    exact hver

theorem sessions_inv_start (db : DB) (u z t c sid : String) (ts : Nat) (q i : Bool)
    (hdb : sessions_inv db) : sessions_inv (start_ad_session db u z t c sid ts q i).1 := by
  unfold start_ad_session
  by_cases h1 : check_daily_ad_limit db u ts MAX_ADS_PER_DAY q = true
  · simpa [h1] using hdb
  · cases i with
    | true => simpa [h1] using hdb
    | false =>
      simp only [h1, Bool.false_eq_true, if_false]
      intro s hs
      rcases List.mem_append.mp hs with hin | hnew
      · exact hdb s hin
      · simp at hnew
        rw [hnew]
        intro hst
        simp at hst

theorem sessions_inv_postback (db : DB) (clickId zoneId pUser : Option String)
    (rev : Rat) (pbStatus : String) (sp sv zv : Bool) (now : Nat) (le ie : Bool)
    (hdb : sessions_inv db) :
    sessions_inv (monetag_postback db clickId zoneId pUser rev pbStatus sp sv zv now
      le ie).db := by
  cases clickId with
  | none => exact hdb
  | some c =>
    by_cases h1 : (sp && !sv) = true
    · simpa [monetag_postback, h1] using hdb
    · by_cases h2 : (zoneId.isSome && !zv) = true
      · simpa [monetag_postback, h1, h2] using hdb
      · by_cases h3 : le = true
        · simpa [monetag_postback, h1, h2, h3] using hdb
        · cases hf : findSessionByClick db.sessions c with
          | some s0 =>
            simp only [monetag_postback, h1, h2, h3, hf, Bool.false_eq_true, if_false]
            intro s hs
            simp only [updateSessionsByClick] at hs
            obtain ⟨t, ht, hts⟩ := List.mem_map.mp hs
            by_cases hc : t.monetag_click_id = c
            · rw [← hts]
              by_cases hps : pbStatus = "completed" <;> simp [hc, hps]
            · rw [← hts]
              simp only [hc, if_false]
              exact hdb t ht
          | none =>
            cases ie with
            | true => simpa [monetag_postback, h1, h2, h3, hf] using hdb
            | false => simpa [monetag_postback, h1, h2, h3, hf] using hdb

theorem sessions_inv_claim (db : DB) (u : String) (sessionId : Option String) (now : Nat)
    (re be ue te : Bool) (hdb : sessions_inv db) :
    sessions_inv (claim_ad_reward db u sessionId now re be ue te).db := by
  cases sessionId with
  | none => exact hdb
  | some sid =>
    cases hl : lookupSessionById db.sessions sid with
    | none => simpa [claim_ad_reward, hl] using hdb
    | some s =>
      by_cases ho : s.user_id ≠ u
      · simpa [claim_ad_reward, hl, ho] using hdb
      · by_cases hst : s.status = "completed"
        · simpa [claim_ad_reward, hl, ho, hst] using hdb
        · by_cases hv : s.monetag_verified
          · have := sessions_inv_claim_internal hdb hl hv u s now re be ue te
            simpa [claim_ad_reward, hl, ho, hst, hv] using this
          · simpa [claim_ad_reward, hl, ho, hst, hv] using hdb

theorem sessions_inv_verify (db : DB) (u : String) (sessionId : Option String) (now : Nat)
    (re be ue te : Bool) (hdb : sessions_inv db) :
    sessions_inv (verify_and_reward db u sessionId now re be ue te).db := by
  cases sessionId with
  | none => exact hdb
  | some sid =>
    cases hl : lookupSessionById db.sessions sid with
    | none => simpa [verify_and_reward, hl] using hdb
    | some s =>
      by_cases ho : s.user_id ≠ u
      · simpa [verify_and_reward, hl, ho] using hdb
      · by_cases hst : s.status = "completed"
        · simpa [verify_and_reward, hl, ho, hst] using hdb
        · by_cases hv : s.monetag_verified
          · have := sessions_inv_claim_internal hdb hl hv u s now re be ue te
            simpa [verify_and_reward, hl, ho, hst, hv] using this
          · simpa [verify_and_reward, hl, ho, hst, hv] using hdb

theorem reward_ad_completion_sessions_eq (db : DB) (u ad adType : String)
    (cu ts now : Nat) (q re be ue te : Bool) :
    (reward_ad_completion db u ad adType cu ts now q re be ue te).db.sessions
      = db.sessions := by
  unfold reward_ad_completion
  by_cases h1 : check_duplicate_ad db u ad cu q = true
  · simp [h1]
  · by_cases h2 : check_daily_ad_limit db u ts MAX_ADS_PER_DAY q = true
    · simp [h1, h2]
    · cases hr : record_ad_completion db u ad adType AD_REWARD none now re with
      | mk db1 ocid =>
        have hse : db1.sessions = db.sessions := by
          have := record_ad_completion_sessions db u ad adType AD_REWARD none now re
          rw [hr] at this
          exact this
        cases ocid with
        | none => simp [h1, h2, hr, hse]
        | some cid =>
          by_cases haw : (award_coins db1 u AD_REWARD "ad_watched" (some cid) be ue te).2
              = true
          · simp [h1, h2, hr, haw, award_coins_sessions, hse]
          · simp [h1, h2, hr, haw, award_coins_sessions, hse]

theorem sessions_inv_reward (db : DB) (u ad adType : String) (cu ts now : Nat)
    (q re be ue te : Bool) (hdb : sessions_inv db) :
    sessions_inv (reward_ad_completion db u ad adType cu ts now q re be ue te).db := by
  intro t ht
  rw [reward_ad_completion_sessions_eq] at ht
  exact hdb t ht

theorem sessions_inv_run_ops (db : DB) (ops : List AdOp) (hdb : sessions_inv db) :
    sessions_inv (run_ad_ops db ops) := by
  induction ops generalizing db with
  | nil => exact hdb
  | cons op rest ih =>
    refine ih _ ?_
    cases op with
    | start u z t c sid ts q i => exact sessions_inv_start db u z t c sid ts q i hdb
    | postback c z pu r st sp sv zv now le ie =>
      exact sessions_inv_postback db c z pu r st sp sv zv now le ie hdb
    | claim u sid now re be ue te => exact sessions_inv_claim db u sid now re be ue te hdb
    | verify u sid now re be ue te => exact sessions_inv_verify db u sid now re be ue te hdb
    | reward u ad t cu ts now q re be ue te =>
      exact sessions_inv_reward db u ad t cu ts now q re be ue te hdb

theorem map_status_of_preserve {g : AdSession → AdSession}
    (hg : ∀ s, (g s).status = s.status) (l : List AdSession) :
    (l.map g).map AdSession.status = l.map AdSession.status := by
  induction l with
  | nil => rfl
  | cons s rest ih => simp [hg, ih]

/-- Claim C2 counterexample: running postback(completed), claim,
postback(failed) on a pending session ends with the claimed session knocked
from completed back to failed, refuting that status completed is stable under
every subsequent operation; monetag_verified stays true, so a further claim
then appends a second ad_completion row for the same session. -/
theorem claim_C2_counterexample :
    (lookupSessionById dbC2b.sessions "s1").map AdSession.status = some "completed" ∧
    (lookupSessionById dbC2c.sessions "s1").map AdSession.status = some "failed" ∧
    ((claim_ad_reward dbC2c "u" (some "s1") 40 false false false
        false).db.completions.filter (fun c => c.session_id == some "s1")).length = 2 := by
  refine ⟨by decide, by decide, by decide⟩

/-- Claim C2 amended: completed implies verified is an invariant of every
operation sequence; a claim or verify-and-reward on an already-completed
session by its owner is refused with 400 and leaves the store untouched, so
the claim path alone cannot double-claim; and a postback whose status field is
completed preserves every session status.  However a postback whose status
field differs from completed resets even a completed session to failed, which
re-enables the claim path for that session. -/
theorem claim_C2_amended :
    (∀ (db : DB) (ops : List AdOp), sessions_inv db → sessions_inv (run_ad_ops db ops)) ∧
    (∀ (db : DB) (u sid : String) (s : AdSession) (now : Nat) (re be ue te : Bool),
      lookupSessionById db.sessions sid = some s → s.user_id = u →
      s.status = "completed" →
      claim_ad_reward db u (some sid) now re be ue te = ⟨db, 400, none⟩) ∧
    (∀ (db : DB) (u sid : String) (s : AdSession) (now : Nat) (re be ue te : Bool),
      lookupSessionById db.sessions sid = some s → s.user_id = u →
      s.status = "completed" →
      verify_and_reward db u (some sid) now re be ue te = ⟨db, 400, none⟩) ∧
    (∀ (db : DB) (c : String) (z pu : Option String) (rev : Rat) (sp sv zv : Bool)
        (now : Nat) (le ie : Bool),
      ((monetag_postback db (some c) z pu rev "completed" sp sv zv now le
          ie).db.sessions).map AdSession.status
        = db.sessions.map AdSession.status) := by
  refine ⟨fun db ops h => sessions_inv_run_ops db ops h, ?_, ?_, ?_⟩
  · intro db u sid s now re be ue te hl ho hst
    simp [claim_ad_reward, hl, ho, hst]
  · intro db u sid s now re be ue te hl ho hst
    simp [verify_and_reward, hl, ho, hst]
  · intro db c z pu rev sp sv zv now le ie
    by_cases h1 : (sp && !sv) = true
    · simp [monetag_postback, h1]
    · by_cases h2 : (z.isSome && !zv) = true
      · simp [monetag_postback, h1, h2]
      · by_cases h3 : le = true
        · simp [monetag_postback, h1, h2, h3]
        · cases hf : findSessionByClick db.sessions c with
          | some s0 =>
            simp only [monetag_postback, h1, h2, h3, hf, Bool.false_eq_true, if_false]
            unfold updateSessionsByClick
            refine map_status_of_preserve ?_ db.sessions
            intro s
            by_cases hc : s.monetag_click_id = c <;> simp [hc]
          | none =>
            cases ie with
            | true => simp [monetag_postback, h1, h2, h3, hf]
            | false => simp [monetag_postback, h1, h2, h3, hf]

/-- Claim C2 witness: on the concrete store whose session s1 is completed, an
owner claim is refused with 400 without mutation, and a completed-status
postback preserves every session status. -/
theorem claim_C2_witness :
    claim_ad_reward dbC2b "u" (some "s1") 99 false false false false
      = ⟨dbC2b, 400, none⟩ ∧
    ((monetag_postback dbC2b (some "c1") none none 0 "completed" false false true 99
        false false).db.sessions).map AdSession.status
      = dbC2b.sessions.map AdSession.status := by
  constructor
  · exact claim_C2_amended.2.1 dbC2b "u" "s1"
      ⟨"s1", "u", "c1", "z9", "onclick", "completed", true, some 0, some 10, some 20⟩
      99 false false false false (by decide) (by decide) (by decide)
  · exact claim_C2_amended.2.2.2 dbC2b "c1" none none 0 false false true 99 false false

theorem award_coins_snd (db : DB) (u : String) (n : Int) (src : String)
    (ref : Option String) (te : Bool) :
    (award_coins db u n src ref false false te).2 = true := by
  unfold award_coins get_coin_balance
  cases hw : lookupWallet db.wallets u <;> simp [hw]

theorem record_ad_completion_wallets (db : DB) (u ad adType : String) (ca : Int)
    (sr : Option String) (now : Nat) (e : Bool) :
    (record_ad_completion db u ad adType ca sr now e).1.wallets = db.wallets := by
  unfold record_ad_completion
  split <;> rfl

theorem award_coins_balance {db : DB} {u : String} {w : Wallet}
    (hw : lookupWallet db.wallets u = some w) (n : Int) (src : String)
    (ref : Option String) (te : Bool) :
    lookupWallet (award_coins db u n src ref false false te).1.wallets u
      = some ⟨w.balance + n, w.lifetime_earned + n, w.lifetime_spent⟩ := by
  unfold award_coins get_coin_balance
  simp only [Bool.false_eq_true, if_false, hw, Option.map_some', Option.getD_some]
  rw [log_transaction_wallets]
  exact lookupWallet_setWallet_some hw _

theorem claim_internal_status (db : DB) (u sid : String) (s : AdSession) (now : Nat) :
    (claim_ad_reward_internal db u sid s now false false false false).status = 200 ∧
    (claim_ad_reward_internal db u sid s now false false false false).coins_earned
      = some AD_REWARD := by
  unfold claim_ad_reward_internal
  dsimp only
  constructor <;> simp [award_coins_snd]

theorem claim_internal_db_wallets {db : DB} {u : String} {w : Wallet}
    (hw : lookupWallet db.wallets u = some w) (sid : String) (s : AdSession) (now : Nat) :
    lookupWallet (claim_ad_reward_internal db u sid s now false false false
        false).db.wallets u
      = some ⟨w.balance + AD_REWARD, w.lifetime_earned + AD_REWARD, w.lifetime_spent⟩ := by
  unfold claim_ad_reward_internal
  dsimp only
  split
  · exact award_coins_balance (by rw [record_ad_completion_wallets]; exact hw) _ _ _ _
  · exact award_coins_balance (by rw [record_ad_completion_wallets]; exact hw) _ _ _ _

/-- Claim C3: after an accepted completed-status postback for a pending
session's click id, the first claim-reward call by the owning user returns 200
and awards exactly AD_REWARD = 5 coins onto the wallet balance, and a second
claim-reward call for the same session returns the already-claimed 400 error
without awarding coins again or touching the store. -/
theorem claim_C3 (db : DB) (s : AdSession) (w : Wallet) (u c sid : String) (rev : Rat)
    (t1 t2 t3 : Nat)
    (hs : lookupSessionById db.sessions sid = some s)
    (hclick : s.monetag_click_id = c)
    (howner : s.user_id = u)
    (hpending : s.status = "pending")
    (hw : lookupWallet db.wallets u = some w) :
    (let db1 := (monetag_postback db (some c) none none rev "completed" false false true t1
        false false).db
     let r1 := claim_ad_reward db1 u (some sid) t2 false false false false
     let r2 := claim_ad_reward r1.db u (some sid) t3 false false false false
     r1.status = 200 ∧ r1.coins_earned = some AD_REWARD ∧
     (lookupWallet r1.db.wallets u).map Wallet.balance = some (w.balance + AD_REWARD) ∧
     r2.status = 400 ∧ r2.coins_earned = none ∧ r2.db = r1.db) := by
  obtain ⟨s0, hs0⟩ := Option.isSome_iff_exists.mp (findSessionByClick_isSome hs hclick)
  intro db1 r1 r2
  have hd1 : db1 = { db with sessions := updateSessionsByClick db.sessions c (fun t =>
      { t with monetag_verified := true, monetag_revenue := some rev,
               postback_timestamp := some t1 }) } := by
    show (monetag_postback db (some c) none none rev "completed" false false true t1
        false false).db = _
    simp [monetag_postback, hs0]
  have hg : ∀ t : AdSession,
      ((fun t0 : AdSession => if t0.monetag_click_id = c then
          { t0 with monetag_verified := true, monetag_revenue := some rev,
                    postback_timestamp := some t1 } else t0) t).id = t.id := by
    intro t
    by_cases hc2 : t.monetag_click_id = c <;> simp [hc2]
  have hlook1 : lookupSessionById db1.sessions sid
      = some { s with monetag_verified := true, monetag_revenue := some rev,
                      postback_timestamp := some t1 } := by
    rw [hd1]
    show lookupSessionById (updateSessionsByClick db.sessions c _) sid = _
    unfold updateSessionsByClick
    rw [lookupSessionById_map hg, hs]
    simp [hclick]
  have hwd1 : lookupWallet db1.wallets u = some w := by
    rw [hd1]
    exact hw
  have hr1 : r1 = claim_ad_reward_internal db1 u sid
      { s with monetag_verified := true, monetag_revenue := some rev,
               postback_timestamp := some t1 } t2 false false false false := by
    show claim_ad_reward db1 u (some sid) t2 false false false false = _
    simp [claim_ad_reward, hlook1, howner, hpending]
  have hst1 := claim_internal_status db1 u sid
      { s with monetag_verified := true, monetag_revenue := some rev,
               postback_timestamp := some t1 } t2
  have hw2 : lookupWallet r1.db.wallets u
      = some ⟨w.balance + AD_REWARD, w.lifetime_earned + AD_REWARD, w.lifetime_spent⟩ := by
    rw [hr1]
    exact claim_internal_db_wallets hwd1 sid _ t2
  have hsess1 : r1.db.sessions = updateFirstSessionById db1.sessions sid
      (fun t => { t with status := "completed", completed_at := some t2 }) := by
    rw [hr1]
    exact claim_internal_sessions db1 u sid _ t2 false false false false
  have hlook2 : lookupSessionById r1.db.sessions sid
      = some { s with monetag_verified := true, monetag_revenue := some rev,
                      postback_timestamp := some t1, status := "completed",
                      completed_at := some t2 } := by
    rw [hsess1]
    exact @lookupSessionById_updateFirst db1.sessions sid _
      (fun t => { t with status := "completed", completed_at := some t2 })
      (fun t => rfl) hlook1
  have hr2 : r2 = ⟨r1.db, 400, none⟩ := by
    show claim_ad_reward r1.db u (some sid) t3 false false false false = _
    simp [claim_ad_reward, hlook2, howner]
  refine ⟨?_, ?_, ?_, ?_, ?_, ?_⟩
  · rw [hr1]
    exact hst1.1
  · rw [hr1]
    exact hst1.2
  · rw [hw2]
    rfl
  · rw [hr2]
  · rw [hr2]
  · rw [hr2]

/-- Claim C3 witness: the concrete pending session with a wallet at 3 coins
ends at 8 coins after postback and first claim, and the second claim is
refused. -/
theorem claim_C3_witness :
    (let db1 := (monetag_postback dbC3 (some "c3") none none 0 "completed" false false true
        10 false false).db
     let r1 := claim_ad_reward db1 "u3" (some "s3") 20 false false false false
     let r2 := claim_ad_reward r1.db "u3" (some "s3") 30 false false false false
     r1.status = 200 ∧ r1.coins_earned = some AD_REWARD ∧
     (lookupWallet r1.db.wallets "u3").map Wallet.balance = some (3 + AD_REWARD) ∧
     r2.status = 400 ∧ r2.coins_earned = none ∧ r2.db = r1.db) :=
  claim_C3 dbC3 sessC3 ⟨3, 8, 5⟩ "u3" "c3" "s3" 0 10 20 30 (by decide) (by decide)
    (by decide) (by decide) (by decide)

end ATool
